import Mathlib

/-!
Verification of the Tectra clock abstraction (`src/src/common/time.hpp`).

The header defines `Timestamp = std::int64_t`, an abstract `Clock` with
`now()` and `is_virtual()`, a `RealClock` reading `std::chrono::steady_clock`,
and a `VirtualClock` holding a single mutable `Timestamp current_time_` with
`advance(delta_ns)` (plain signed addition `current_time_ += delta_ns`) and
`set_time(absolute_time)` (plain assignment).

Embedding choices:
* `Timestamp` / `std::int64_t` values are Lean `Int`s constrained to the
  signed 64-bit range by the predicate `In64`.
* In C++, overflow of signed 64-bit addition is undefined behaviour; the
  source performs a bare `+=` with no saturation or wrapping.  The undefined
  case is therefore modelled as `none`: `advance` returns `Option VirtualClock`,
  with `some` exactly when the mathematical sum stays in the int64 range.
* `RealClock::now` calls `std::chrono::steady_clock::now()` and converts the
  duration to nanoseconds via `duration_cast`, whose integral conversion
  truncates toward zero (`Int.tdiv`).  The platform clock is modelled as an
  environment supplying a tick sequence together with the C++ standard's
  steady-clock guarantee that it never decreases.
-/

namespace Tectra

/-- Smallest value of `std::int64_t`, `-2^63`. -/
def INT64_MIN : Int := -9223372036854775808

/-- Largest value of `std::int64_t`, `2^63 - 1`. -/
def INT64_MAX : Int := 9223372036854775807

/-- The integer `x` is representable as a signed 64-bit value. -/
def In64 (x : Int) : Prop := INT64_MIN ≤ x ∧ x ≤ INT64_MAX

instance (x : Int) : Decidable (In64 x) :=
  inferInstanceAs (Decidable (INT64_MIN ≤ x ∧ x ≤ INT64_MAX))

/-- Two's-complement wraparound of an integer into the int64 range
(`wrapping modulo 2^64` in the spec's words). -/
def wrap64 (x : Int) : Int :=
  (x + 9223372036854775808) % 18446744073709551616 - 9223372036854775808

/-- Saturation of an integer at the int64 bounds (the spec's recommended
overflow policy). -/
def sat64 (x : Int) : Int := max INT64_MIN (min INT64_MAX x)

/-- `VirtualClock` (`time.hpp` lines 31–41): a single mutable
`Timestamp current_time_`. -/
structure VirtualClock where
  current_time_ : Int
  deriving DecidableEq

/-- The constructor `explicit VirtualClock(Timestamp start_time = 0)`
(`time.hpp` line 33), applied to an explicit argument. -/
def VirtualClock.init (start_time : Int) : VirtualClock :=
  ⟨start_time⟩

/-- The constructor called with no argument: the default argument is `0`
(`time.hpp` line 33). -/
def VirtualClock.initDefault : VirtualClock :=
  VirtualClock.init 0

/-- `Timestamp now() const override { return current_time_; }`
(`time.hpp` line 34). -/
def VirtualClock.now (c : VirtualClock) : Int :=
  c.current_time_

/-- `bool is_virtual() const override { return true; }` (`time.hpp` line 35). -/
def VirtualClock.is_virtual (_ : VirtualClock) : Bool :=
  true

/-- `void advance(std::int64_t delta_ns) { current_time_ += delta_ns; }`
(`time.hpp` line 36).  The `+=` is plain signed 64-bit addition, which in C++
is undefined behaviour when the sum leaves the int64 range; the undefined
case is modelled as `none`. -/
def VirtualClock.advance (c : VirtualClock) (delta_ns : Int) : Option VirtualClock :=
  if In64 (c.current_time_ + delta_ns) then some ⟨c.current_time_ + delta_ns⟩ else none

/-- `void set_time(Timestamp absolute_time) { current_time_ = absolute_time; }`
(`time.hpp` line 37). -/
def VirtualClock.set_time (c : VirtualClock) (absolute_time : Int) : VirtualClock :=
  ⟨absolute_time⟩

/-- `RealClock` (`time.hpp` lines 19–29): carries no observable state. -/
structure RealClock where
  deriving DecidableEq

/-- `bool is_virtual() const override { return false; }` (`time.hpp` line 28). -/
def RealClock.is_virtual (_ : RealClock) : Bool :=
  false

/-- The platform's `std::chrono::steady_clock`, which the repository does not
implement: an environment supplying, for the i-th read of the process, the
tick count `tick i` of `now().time_since_epoch()` in the clock's native
period `num/den` seconds per tick, with the C++ standard's guarantee that a
steady clock never decreases (`tick_mono`). -/
structure SteadyClockEnv where
  num : Int
  den : Int
  num_pos : 0 < num
  den_pos : 0 < den
  tick : Nat → Int
  tick_mono : ∀ i j : Nat, i ≤ j → tick i ≤ tick j

/-- `RealClock::now` (`time.hpp` lines 21–26): reads the steady clock and
returns `duration_cast<nanoseconds>(duration).count()`.  Converting `v` ticks
of `num/den` seconds to nanoseconds computes `v * num * 10^9 / den` with the
division truncating toward zero, which is `Int.tdiv`.  (`duration_cast` works
with the reduced ratio, which denotes the same rational and so the same
truncated quotient.) -/
def RealClock.now (env : SteadyClockEnv) (i : Nat) : Int :=
  (env.tick i * (env.num * 1000000000)).tdiv env.den

/-- A mutation of a `VirtualClock`: one of the two mutating member calls. -/
inductive ClockOp where
  | advanceOp (delta_ns : Int)
  | setTimeOp (absolute_time : Int)
  deriving DecidableEq

/-- Apply one mutating call to a `VirtualClock` state. -/
def applyOp (c : VirtualClock) : ClockOp → Option VirtualClock
  | ClockOp.advanceOp d => c.advance d
  | ClockOp.setTimeOp a => some (c.set_time a)

/-- Run a sequence of mutating calls on a `VirtualClock` state. -/
def runOps (c : VirtualClock) : List ClockOp → Option VirtualClock
  | [] => some c
  | op :: rest => (applyOp c op).bind (fun c2 => runOps c2 rest)

/-- One call of `VirtualClock::now`: the member is `const` and its body is
`return current_time_;`, so it yields the stored value and the state it ran
on, unchanged (`time.hpp` line 34). -/
def nowStep (c : VirtualClock) : Int × VirtualClock :=
  (c.now, c)

/-- `n` consecutive calls of `VirtualClock::now` with no intervening
mutation: the list of returned Timestamps together with the final state. -/
def readTrace (c : VirtualClock) : Nat → List Int × VirtualClock
  | 0 => ([], c)
  | n + 1 =>
      let p := nowStep c
      let q := readTrace p.2 n
      (p.1 :: q.1, q.2)

/-- A concrete platform environment used to witness the RealClock theorem:
period 1/1 second per tick and tick sequence `i ↦ i`. -/
def envW : SteadyClockEnv :=
  ⟨1, 1, by decide, by decide, fun i => (i : Int),
   fun i j h => by simpa using Int.ofNat_le.mpr h⟩

theorem advance_eq_some {c : VirtualClock} {d : Int}
    (h : In64 (c.current_time_ + d)) :
    c.advance d = some ⟨c.current_time_ + d⟩ := by
  unfold VirtualClock.advance
  rw [if_pos h]

theorem advance_eq_none {c : VirtualClock} {d : Int}
    (h : ¬ In64 (c.current_time_ + d)) :
    c.advance d = none := by
  unfold VirtualClock.advance
  rw [if_neg h]

theorem readTrace_eq (c : VirtualClock) (n : Nat) :
    readTrace c n = (List.replicate n c.now, c) := by
  induction n with
  | zero => rfl
  | succ k ih =>
      simp only [readTrace, nowStep, ih, List.replicate]

theorem tdiv_mono_of_pos {a b d : Int} (hd : 0 < d) (hab : a ≤ b) :
    a.tdiv d ≤ b.tdiv d := by
  rcases le_or_lt 0 a with ha | ha
  · have hb : (0 : Int) ≤ b := le_trans ha hab
    rw [Int.tdiv_eq_ediv ha (le_of_lt hd), Int.tdiv_eq_ediv hb (le_of_lt hd)]
    exact Int.ediv_le_ediv hd hab
  · have hatd : a.tdiv d = -((-a).tdiv d) := by
      have h1 := Int.neg_tdiv (-a) d
      simp only [neg_neg] at h1
      exact h1
    rcases le_or_lt 0 b with hb | hb
    · have h2 : 0 ≤ (-a).tdiv d := Int.tdiv_nonneg (by omega) (le_of_lt hd)
      have h3 : 0 ≤ b.tdiv d := Int.tdiv_nonneg hb (le_of_lt hd)
      omega
    · have hbtd : b.tdiv d = -((-b).tdiv d) := by
        have h1 := Int.neg_tdiv (-b) d
        simp only [neg_neg] at h1
        exact h1
      have h4 : (-b).tdiv d ≤ (-a).tdiv d := by
        rw [Int.tdiv_eq_ediv (by omega) (le_of_lt hd),
            Int.tdiv_eq_ediv (by omega) (le_of_lt hd)]
        exact Int.ediv_le_ediv hd (by omega)
      omega

/-- C1: for all int64 values `a` and `d` whose sum is representable in
int64, executing `set_time(a)` then `advance(d)` leaves the current time
equal to `a + d`, so the next `now()` returns `a + d`.  (The source declares
no overflow policy; outside the representable range the addition is
undefined, see C2.) -/
theorem c1_set_time_then_advance_now (c : VirtualClock) (a d : Int)
    (ha : In64 a) (hd : In64 d) (had : In64 (a + d)) :
    ((c.set_time a).advance d).map VirtualClock.now = some (a + d) := by
  have h : (c.set_time a).advance d = some ⟨a + d⟩ := advance_eq_some had
  rw [h]
  rfl

/-- Witness for C1 at `a = 5`, `d = 3` from initial state `0`: the next
`now()` returns `8`. -/
theorem c1_witness :
    (((VirtualClock.init 0).set_time 5).advance 3).map VirtualClock.now
      = some (5 + 3) :=
  c1_set_time_then_advance_now (VirtualClock.init 0) 5 3
    (by decide) (by decide) (by decide)

/-- C2 counterexample: at current time `INT64_MAX` with delta `1` the sum
leaves the int64 range, and `current_time_ += delta_ns` is undefined
behaviour (modelled `none`); in particular the outcome is neither the
saturated result `INT64_MAX` nor the wrapped result `INT64_MIN`, so no
saturate-or-wrap policy is implemented. -/
theorem c2_counterexample :
    (VirtualClock.init INT64_MAX).advance 1 = none ∧
    sat64 (INT64_MAX + 1) = INT64_MAX ∧
    wrap64 (INT64_MAX + 1) = INT64_MIN ∧
    (none : Option VirtualClock) ≠ some (VirtualClock.init (sat64 (INT64_MAX + 1))) ∧
    (none : Option VirtualClock) ≠ some (VirtualClock.init (wrap64 (INT64_MAX + 1))) := by
  decide

/-- C2 amended: `advance` performs bare signed 64-bit addition with no
overflow policy.  Whenever `t + d` leaves the int64 range the behaviour is
undefined (modelled `none`); in particular the result is neither the
saturated value nor the wrapped value. -/
theorem c2_advance_overflow_undefined (c : VirtualClock) (d : Int)
    (h : ¬ In64 (c.now + d)) :
    c.advance d = none ∧
    c.advance d ≠ some (VirtualClock.init (sat64 (c.now + d))) ∧
    c.advance d ≠ some (VirtualClock.init (wrap64 (c.now + d))) := by
  have hn : c.advance d = none := advance_eq_none h
  refine ⟨hn, ?_, ?_⟩ <;> simp [hn]

/-- Witness for the amended C2 at current time `INT64_MIN` with delta `-2`:
the sum underflows and the outcome is undefined. -/
theorem c2_witness :
    (VirtualClock.init INT64_MIN).advance (-2) = none ∧
    (VirtualClock.init INT64_MIN).advance (-2)
      ≠ some (VirtualClock.init (sat64 (INT64_MIN + -2))) ∧
    (VirtualClock.init INT64_MIN).advance (-2)
      ≠ some (VirtualClock.init (wrap64 (INT64_MIN + -2))) :=
  c2_advance_overflow_undefined (VirtualClock.init INT64_MIN) (-2) (by decide)

/-- C3: `now()` returns exactly the value last written by the constructor,
`advance`, or `set_time`, and any number of consecutive `now()` calls with
no intervening mutation return that same Timestamp while leaving the state
unchanged. -/
theorem c3_now_observability (a b d : Int) (c c2 : VirtualClock) (n : Nat)
    (h : c.advance d = some c2) :
    (VirtualClock.init a).now = a ∧
    c2.now = c.now + d ∧
    (c.set_time b).now = b ∧
    readTrace c n = (List.replicate n c.now, c) := by
  refine ⟨rfl, ?_, rfl, readTrace_eq c n⟩
  by_cases hin : In64 (c.current_time_ + d)
  · rw [advance_eq_some hin] at h
    cases h
    rfl
  · rw [advance_eq_none hin] at h
    exact Option.noConfusion h

/-- Witness for C3: construction writes `1`, advance writes `0 + 3`,
set_time writes `2`, and four reads from state `0` all return `0` without
changing the state. -/
theorem c3_witness :
    (VirtualClock.init 1).now = 1 ∧
    (VirtualClock.mk 3).now = (VirtualClock.mk 0).now + 3 ∧
    ((VirtualClock.mk 0).set_time 2).now = 2 ∧
    readTrace (VirtualClock.mk 0) 4
      = (List.replicate 4 (VirtualClock.mk 0).now, VirtualClock.mk 0) :=
  c3_now_observability 1 2 3 (VirtualClock.mk 0) (VirtualClock.mk 3) 4 (by decide)

/-- C4: within one thread of one process, the sequence of values returned
by `RealClock::now` is non-decreasing: the platform steady clock never
decreases and the truncating nanosecond conversion preserves order. -/
theorem c4_realclock_monotone (env : SteadyClockEnv) (i j : Nat) (h : i ≤ j) :
    RealClock.now env i ≤ RealClock.now env j := by
  unfold RealClock.now
  apply tdiv_mono_of_pos env.den_pos
  have ht := env.tick_mono i j h
  have hpos : (0 : Int) ≤ env.num * 1000000000 :=
    mul_nonneg (le_of_lt env.num_pos) (by norm_num)
  exact mul_le_mul_of_nonneg_right ht hpos

/-- Witness for C4 on the concrete environment `envW` with reads 0 and 3. -/
theorem c4_witness : RealClock.now envW 0 ≤ RealClock.now envW 3 :=
  c4_realclock_monotone envW 0 3 (by decide)

/-- C5: a VirtualClock constructed with initial value `a` returns exactly
`a` from its first `now()`, and a VirtualClock constructed with no argument
(default `0`) returns `0`. -/
theorem c5_constructor_initial (a : Int) (ha : In64 a) :
    (VirtualClock.init a).now = a ∧ VirtualClock.initDefault.now = 0 :=
  ⟨rfl, rfl⟩

/-- Witness for C5 at `a = 42`. -/
theorem c5_witness :
    (VirtualClock.init 42).now = 42 ∧ VirtualClock.initDefault.now = 0 :=
  c5_constructor_initial 42 (by decide)

/-- C6: `is_virtual()` returns `true` on every VirtualClock state and
`false` on every RealClock, and it is unchanged by any sequence of mutating
operations applied over the object's lifetime. -/
theorem c6_is_virtual_constant (c c2 : VirtualClock) (r : RealClock)
    (ops : List ClockOp) (h : runOps c ops = some c2) :
    c.is_virtual = true ∧ r.is_virtual = false ∧ c2.is_virtual = c.is_virtual :=
  ⟨rfl, rfl, rfl⟩

/-- Witness for C6 over the operation sequence `advance(5); set_time(2)`
from state `0`. -/
theorem c6_witness :
    (VirtualClock.init 0).is_virtual = true ∧
    RealClock.is_virtual RealClock.mk = false ∧
    (VirtualClock.mk 2).is_virtual = (VirtualClock.init 0).is_virtual :=
  c6_is_virtual_constant (VirtualClock.init 0) (VirtualClock.mk 2) RealClock.mk
    [ClockOp.advanceOp 5, ClockOp.setTimeOp 2] (by decide)

/-- C7 counterexample: at current time `INT64_MIN` with negative delta `-1`
the sum leaves the int64 range, so `advance` does not return `t + d`: the
addition is undefined behaviour (modelled `none`), refuting the claim's
universal quantification over every negative delta. -/
theorem c7_counterexample :
    ((VirtualClock.init INT64_MIN).advance (-1)).map VirtualClock.now
      ≠ some (INT64_MIN + -1) := by
  decide

/-- C7 amended: `advance` accepts negative deltas and applies them exactly,
with no clamping, whenever the sum `t + d` stays in the int64 range. -/
theorem c7_negative_delta (c : VirtualClock) (d : Int) (hneg : d < 0)
    (hd : In64 d) (h : In64 (c.now + d)) :
    (c.advance d).map VirtualClock.now = some (c.now + d) := by
  rw [advance_eq_some h]
  rfl

/-- Witness for the amended C7, the spec's own scenario: `VirtualClock(100)`
then `advance(-50)` makes `now()` return `50`. -/
theorem c7_witness :
    ((VirtualClock.init 100).advance (-50)).map VirtualClock.now = some 50 :=
  c7_negative_delta (VirtualClock.init 100) (-50)
    (by decide) (by decide) (by decide)

/-- C8: `set_time(a)` overwrites the current time with exactly `a` from any
prior state, with no ordering constraint relating `a` to the prior value. -/
theorem c8_set_time_overwrites (c : VirtualClock) (a : Int) (ha : In64 a) :
    (c.set_time a).now = a :=
  rfl

/-- Witness for C8: overwriting a larger prior time `7` with `3`. -/
theorem c8_witness : ((VirtualClock.mk 7).set_time 3).now = 3 :=
  c8_set_time_overwrites (VirtualClock.mk 7) 3 (by decide)

/-- C9 counterexample: `advance` does not succeed for every int64 input:
from current time `1`, `advance(INT64_MAX)` overflows and its behaviour is
undefined (modelled `none`), so the operation is not total. -/
theorem c9_counterexample :
    ((VirtualClock.init 1).advance INT64_MAX).isSome = false := by
  decide

/-- C9 amended: `now()`, `is_virtual()` and `set_time` are total and
error-free on both variants, and `advance` accepts any int64 input and
never reports an error, but it is well-defined only when the sum stays in
the int64 range (overflow is undefined behaviour, not an error value). -/
theorem c9_totality (c : VirtualClock) (r : RealClock) (a d : Int)
    (hd : In64 (c.now + d)) :
    (c.advance d).isSome = true ∧
    (c.set_time a).now = a ∧
    c.is_virtual = true ∧
    r.is_virtual = false := by
  refine ⟨?_, rfl, rfl, rfl⟩
  rw [advance_eq_some hd]
  rfl

/-- Witness for the amended C9 at state `0`, `set_time(9)`, `advance(4)`. -/
theorem c9_witness :
    ((VirtualClock.mk 0).advance 4).isSome = true ∧
    ((VirtualClock.mk 0).set_time 9).now = 9 ∧
    (VirtualClock.mk 0).is_virtual = true ∧
    RealClock.is_virtual RealClock.mk = false :=
  c9_totality (VirtualClock.mk 0) RealClock.mk 9 4 (by decide)

/-- C10 counterexample: from current time `0`, `advance(INT64_MAX)` then
`advance(1)` is undefined (the second addition overflows), while the single
call `advance(wrap64 (INT64_MAX + 1)) = advance(INT64_MIN)` is defined, so
the sequential composition does not equal the wrapped-sum single call. -/
theorem c10_counterexample :
    ((VirtualClock.init 0).advance INT64_MAX).bind (fun x => x.advance 1)
      ≠ (VirtualClock.init 0).advance (wrap64 (INT64_MAX + 1)) := by
  decide

/-- C10 amended: when every intermediate sum stays in the int64 range,
`advance(d1)` followed by `advance(d2)` equals the single call
`advance(d1 + d2)`, and the two advance calls commute. -/
theorem c10_advance_compose (c : VirtualClock) (d1 d2 : Int)
    (h1 : In64 (c.now + d1)) (h2 : In64 (c.now + d2))
    (h12 : In64 (c.now + d1 + d2)) (hs : In64 (d1 + d2)) :
    ((c.advance d1).bind (fun x => x.advance d2) = c.advance (d1 + d2)) ∧
    ((c.advance d1).bind (fun x => x.advance d2)
      = (c.advance d2).bind (fun x => x.advance d1)) := by
  have e1 : c.advance d1 = some ⟨c.current_time_ + d1⟩ := advance_eq_some h1
  have e2 : c.advance d2 = some ⟨c.current_time_ + d2⟩ := advance_eq_some h2
  have h12a : In64 ((c.current_time_ + d1) + d2) := h12
  have h12b : In64 ((c.current_time_ + d2) + d1) := by
    have hc : (c.current_time_ + d2) + d1 = (c.current_time_ + d1) + d2 := by ring
    rw [hc]
    exact h12a
  have h12c : In64 (c.current_time_ + (d1 + d2)) := by
    have hc : c.current_time_ + (d1 + d2) = (c.current_time_ + d1) + d2 := by ring
    rw [hc]
    exact h12a
  have e3 : (VirtualClock.mk (c.current_time_ + d1)).advance d2
      = some ⟨(c.current_time_ + d1) + d2⟩ := advance_eq_some h12a
  have e4 : (VirtualClock.mk (c.current_time_ + d2)).advance d1
      = some ⟨(c.current_time_ + d2) + d1⟩ := advance_eq_some h12b
  have e5 : c.advance (d1 + d2) = some ⟨c.current_time_ + (d1 + d2)⟩ :=
    advance_eq_some h12c
  constructor
  · rw [e1]
    show (VirtualClock.mk (c.current_time_ + d1)).advance d2 = c.advance (d1 + d2)
    rw [e3, e5]
    have hc : (c.current_time_ + d1) + d2 = c.current_time_ + (d1 + d2) := by ring
    rw [hc]
  · rw [e1, e2]
    show (VirtualClock.mk (c.current_time_ + d1)).advance d2
        = (VirtualClock.mk (c.current_time_ + d2)).advance d1
    rw [e3, e4]
    have hc : (c.current_time_ + d1) + d2 = (c.current_time_ + d2) + d1 := by ring
    rw [hc]

/-- Witness for the amended C10 at state `10`, `d1 = 5`, `d2 = -3`. -/
theorem c10_witness :
    (((VirtualClock.mk 10).advance 5).bind (fun x => x.advance (-3))
      = (VirtualClock.mk 10).advance (5 + -3)) ∧
    (((VirtualClock.mk 10).advance 5).bind (fun x => x.advance (-3))
      = ((VirtualClock.mk 10).advance (-3)).bind (fun x => x.advance 5)) :=
  c10_advance_compose (VirtualClock.mk 10) 5 (-3)
    (by decide) (by decide) (by decide) (by decide)

end Tectra
